import Mathlib

/-!
Verification of the boomnet Linux RX timestamping wrapper stream
(`src/stream/timestamping.rs`, SCM_TIMESTAMPING capture).

The embedding targets a 64-bit Linux build, the configuration the source
is written for (`cfg(target_os = "linux")`): `size_t` and `c_long` are
8 bytes, `libc::cmsghdr` is 16 bytes (one `size_t` length plus two
4-byte ints), `libc::timespec` is 16 bytes (two `i64` fields), so
`ScmTimestamping` (three timespecs) is 48 bytes.  Machine integers are
modelled as `Nat`/`Int` with explicit reduction modulo `2 ^ 64` where
the Rust code can overflow; unsigned overflow of `+` is modelled with
the release-build wrapping semantics.

The kernel-filled control region is modelled as a function
`Nat → CMsg`: at each byte offset it gives the control-message header
fields (`cmsg_len`, `cmsg_level`, `cmsg_type`) that a read of 16 header
bytes at that offset would produce, together with the `ScmTimestamping`
record that a 48-byte read at the data offset (header offset + 16,
i.e. `cmsg_data`) would produce.  `msg_controllen` as updated by the
kernel on return from `recvmsg` is a separate `Nat`.
-/

namespace Boomnet

/-- Linux: `SOL_SOCKET = 1`. -/
def SOL_SOCKET : Int := 1

/-- Linux (x86-64): `SO_TIMESTAMPING = 37`; `SCM_TIMESTAMPING` is defined
in the source as `libc::SO_TIMESTAMPING`. -/
def SCM_TIMESTAMPING : Int := 37

/-- Model of `libc::timespec` on 64-bit Linux: two `i64` fields. -/
structure Timespec where
  tv_sec : Int
  tv_nsec : Int
deriving DecidableEq

/-- Modelled from the spec: `RxTimestamps` value type
`{sw_ns, hw_sys_ns, hw_raw_ns}` (declared in `crate::stream`, outside
`src/`); three unsigned 64-bit nanosecond fields, zero meaning
not supplied. -/
structure RxTimestamps where
  sw_ns : Nat
  hw_sys_ns : Nat
  hw_raw_ns : Nat
deriving DecidableEq

/-- Rust `RxTimestamps::default()`: all fields zero. -/
def RxTimestamps.default : RxTimestamps := ⟨0, 0, 0⟩

/-- Model of `struct ScmTimestamping { ts: [libc::timespec; 3] }` — the
three kernel time records, positionally software /
hardware-in-system-domain / raw hardware. -/
structure ScmTimestamping where
  ts0 : Timespec
  ts1 : Timespec
  ts2 : Timespec
deriving DecidableEq

/-- The largest `u64`, that is `2 ^ 64 - 1`. -/
def u64Max : Nat := 2 ^ 64 - 1

/-- The Rust cast `x as u64` on an `i64` value: the two-complement bit
pattern, i.e. the representative of `x` modulo `2 ^ 64`. -/
def u64_of_i64 (x : Int) : Nat := (x % (2 ^ 64 : Int)).toNat

/-- Source `ns_from_timespec` (lines 35-41): an all-zero timespec maps to
the sentinel 0; otherwise `(tv_sec as u64).saturating_mul(1_000_000_000)
+ (tv_nsec as u64)`.  The multiplication saturates at `u64::MAX`; the
final `+` is an unchecked `u64` addition, modelled with release-build
wrapping (reduction modulo `2 ^ 64`). -/
def ns_from_timespec (ts : Timespec) : Nat :=
  if ts.tv_sec = 0 ∧ ts.tv_nsec = 0 then 0
  else (min (u64_of_i64 ts.tv_sec * 1000000000) u64Max + u64_of_i64 ts.tv_nsec) % 2 ^ 64

/-- Value of `mem::size_of::<libc::cmsghdr>()` on 64-bit Linux. -/
def size_of_cmsghdr : Nat := 16

/-- Value of `mem::size_of::<libc::timespec>()` on 64-bit Linux. -/
def size_of_timespec : Nat := 16

/-- Value of `mem::size_of::<ScmTimestamping>()`: three packed
timespecs. -/
def size_of_scm : Nat := 3 * size_of_timespec

/-- One control-message entry as readable at a byte offset of the control
region: the header fields at the offset, plus the `ScmTimestamping`
record that reinterpreting the 48 bytes at the data offset
(offset + 16) would yield. -/
structure CMsg where
  cmsg_len : Nat
  cmsg_level : Int
  cmsg_type : Int
  scm : ScmTimestamping
deriving DecidableEq

/-- The kernel-filled control region (scratch buffer contents after
`recvmsg`), viewed at every byte offset. -/
def Ctrl : Type := Nat → CMsg

/-- Source `cmsg_align` (lines 49-53) with `a = size_of::<c_long>() = 8`:
`(len + a - 1) & !(a - 1)`.  The addition is a `usize` addition, so in a
release build it wraps modulo `2 ^ 64` (a debug build panics there); the
mask then rounds down to a multiple of 8.  In particular for
`len ≥ 2 ^ 64 - 7` the wrapped sum is at most 6 and the alignment is 0,
so the chain walk makes no progress on such a declared length. -/
def cmsg_align (len : Nat) : Nat := (len + 8 - 1) % 2 ^ 64 / 8 * 8

/-- Source `cmsg_firsthdr` (lines 55-63): the first header is at offset 0
if `msg_controllen` holds at least one `cmsghdr`, else null (`none`). -/
def cmsg_firsthdr (cl : Nat) : Option Nat :=
  if size_of_cmsghdr ≤ cl then some 0 else none

/-- Source `cmsg_nxthdr` (lines 65-86): step from the header at offset
`c` to `c + cmsg_align(cmsg_len)`; null if the next header itself, or
the next header together with its own declared `cmsg_len`, would extend
past the end of the control region. -/
def cmsg_nxthdr (ctrl : Ctrl) (cl : Nat) (c : Nat) : Option Nat :=
  let next := c + cmsg_align (ctrl c).cmsg_len
  if cl < next + size_of_cmsghdr then none
  else if cl < next + (ctrl next).cmsg_len then none
  else some next

/-- The match condition of the scan loop (source line 191):
`cmsg_level == SOL_SOCKET && cmsg_type == SCM_TIMESTAMPING`. -/
def isMatch (h : CMsg) : Bool :=
  h.cmsg_level == SOL_SOCKET && h.cmsg_type == SCM_TIMESTAMPING

/-- Decoding a matching entry (source lines 196-201): the three timespecs
read at the data offset, converted positionally — index 0 software,
index 1 hardware-in-system-domain, index 2 raw hardware. -/
def decodeEntry (h : CMsg) : RxTimestamps :=
  { sw_ns := ns_from_timespec h.scm.ts0
    hw_sys_ns := ns_from_timespec h.scm.ts1
    hw_raw_ns := ns_from_timespec h.scm.ts2 }

/-- The `while !c.is_null()` scan of the ancillary chain (source lines
189-206), written with explicit fuel because the pointer walk of the raw
code need not terminate.  Result `some found` means the loop exited with
`self.last = found`; `none` means the fuel ran out.  On a matching entry
the loop stores the decoded timestamps only when the declared
`cmsg_len` covers the aligned header plus the 48-byte payload, and it
breaks unconditionally; otherwise it steps with `cmsg_nxthdr`. -/
def scanLoop (ctrl : Ctrl) (cl : Nat) : Nat → Option Nat → Option (Option RxTimestamps)
  | _, none => some none
  | 0, some _ => none
  | fuel + 1, some c =>
    if isMatch (ctrl c) then
      if cmsg_align size_of_cmsghdr + size_of_scm ≤ (ctrl c).cmsg_len then
        some (some (decodeEntry (ctrl c)))
      else
        some none
    else
      scanLoop ctrl cl fuel (cmsg_nxthdr ctrl cl c)

/-- The offsets the raw chain walk visits (ignoring the match-break),
truncated by fuel: the whole chain when nothing matches. -/
def chainAll (ctrl : Ctrl) (cl : Nat) : Nat → Option Nat → List Nat
  | _, none => []
  | 0, some _ => []
  | fuel + 1, some c => c :: chainAll ctrl cl fuel (cmsg_nxthdr ctrl cl c)

/-- The offset of the first matching entry the walk reaches: `some none`
when the walk hits null with no match, `none` when the fuel runs out. -/
def findMatch (ctrl : Ctrl) (cl : Nat) : Nat → Option Nat → Option (Option Nat)
  | _, none => some none
  | 0, some _ => none
  | fuel + 1, some c =>
    if isMatch (ctrl c) then some (some c)
    else findMatch ctrl cl fuel (cmsg_nxthdr ctrl cl c)

/-- The outcome of the `recvmsg` syscall as the read sees it: either a
negative return with an OS error code, or `n ≥ 0` bytes together with
the kernel-filled control region and the updated `msg_controllen`
(which the kernel keeps at most 512, the scratch buffer size). -/
inductive RecvOutcome where
  | err (errno : Int)
  | ok (n : Nat) (ctrl : Ctrl) (cl : Nat)

/-- State of `TimestampingStream<S>`: the wrapped inner stream and the
optional last-captured timestamps slot.  The 512-byte scratch buffer is
not part of the model state: its contents are kernel-written on every
read and are carried by `RecvOutcome.ok`. -/
structure TimestampingStream (σ : Type) where
  inner : σ
  last : Option RxTimestamps

/-- Constructor `TimestampingStream::new`. -/
def TimestampingStream.new {σ : Type} (inner : σ) : TimestampingStream σ :=
  { inner := inner, last := none }

/-- The `Read::read` impl for `TimestampingStream` (source lines
162-210), as a function of the `recvmsg` outcome: a negative return
propagates the OS error and leaves the state untouched; 0 bytes clears
the slot and returns `Ok(0)`; otherwise the slot is reset to `None` and
the ancillary chain is scanned, the slot receiving whatever the scan
stored.  The outer `Option` is `none` exactly when the raw scan loop
never terminates (fuel `cl + 2` suffices: every progressing
`cmsg_nxthdr` step advances by at least 8 bytes inside a region of `cl`
bytes, so a terminating walk takes at most `cl / 8 + 2` iterations, and
a stalled walk repeats one offset forever). -/
def TimestampingStream.read {σ : Type} (s : TimestampingStream σ) :
    RecvOutcome → Option (Except Int Nat × TimestampingStream σ)
  | .err e => some (.error e, s)
  | .ok n ctrl cl =>
    if n = 0 then some (.ok 0, { s with last := none })
    else
      match scanLoop ctrl cl (cl + 2) (cmsg_firsthdr cl) with
      | none => none
      | some found => some (.ok n, { s with last := found })

/-- The `RxTimestamped::last_rx_timestamps` impl (source lines
152-155). -/
def TimestampingStream.last_rx_timestamps {σ : Type} (s : TimestampingStream σ) :
    Option RxTimestamps := s.last

/-- The `RxTimestamped::take_last_rx_timestamps` impl (source lines
157-159). -/
def TimestampingStream.take_last_rx_timestamps {σ : Type} (s : TimestampingStream σ) :
    Option RxTimestamps × TimestampingStream σ := (s.last, { s with last := none })

/-- Modelled from the spec: `ConnectionInfo`, the immutable identity of
a remote endpoint (host, port, optional CPU affinity hint), declared in
`crate::stream`, outside `src/`. -/
structure ConnectionInfo where
  host : String
  port : Nat
  cpu_affinity_hint : Option Nat
deriving DecidableEq

/-- Modelled from the spec: the capability traits the wrapped inner
layer implements (`Write`, `ConnectionInfoProvider`, `Selectable` of
`crate::service::select`, `AsRawFd`), declared outside `src/`.  An inner
stream is an abstract state `σ` together with one response function per
operation; operations taking `&mut self` thread the state. -/
structure InnerOps (σ : Type) where
  write : σ → List Nat → Except Int Nat × σ
  flush : σ → Except Int Unit × σ
  connection_info : σ → ConnectionInfo
  as_raw_fd : σ → Int
  connected : σ → Except Int Bool × σ
  make_writable : σ → Except Int Unit × σ
  make_readable : σ → Except Int Unit × σ

/-- The `Write::write` impl for `TimestampingStream` (source lines
214-216): `self.inner.write(buf)`. -/
def TimestampingStream.write {σ : Type} (ops : InnerOps σ) (s : TimestampingStream σ)
    (buf : List Nat) : Except Int Nat × TimestampingStream σ :=
  let r := ops.write s.inner buf
  (r.1, { s with inner := r.2 })

/-- The `Write::flush` impl for `TimestampingStream` (source lines
218-220): `self.inner.flush()`. -/
def TimestampingStream.flush {σ : Type} (ops : InnerOps σ) (s : TimestampingStream σ) :
    Except Int Unit × TimestampingStream σ :=
  let r := ops.flush s.inner
  (r.1, { s with inner := r.2 })

/-- The `ConnectionInfoProvider::connection_info` impl for
`TimestampingStream` (source lines 224-226):
`self.inner.connection_info()`. -/
def TimestampingStream.connection_info {σ : Type} (ops : InnerOps σ)
    (s : TimestampingStream σ) : ConnectionInfo :=
  ops.connection_info s.inner

/-- The `AsRawFd::as_raw_fd` impl for `TimestampingStream` (source lines
147-149): `self.inner.as_raw_fd()`. -/
def TimestampingStream.as_raw_fd {σ : Type} (ops : InnerOps σ)
    (s : TimestampingStream σ) : Int :=
  ops.as_raw_fd s.inner

/-- The `Selectable::connected` impl for `TimestampingStream` (source
lines 230-232): `self.inner.connected()`. -/
def TimestampingStream.connected {σ : Type} (ops : InnerOps σ) (s : TimestampingStream σ) :
    Except Int Bool × TimestampingStream σ :=
  let r := ops.connected s.inner
  (r.1, { s with inner := r.2 })

/-- The `Selectable::make_writable` impl for `TimestampingStream`
(source lines 234-236): `self.inner.make_writable()`. -/
def TimestampingStream.make_writable {σ : Type} (ops : InnerOps σ)
    (s : TimestampingStream σ) : Except Int Unit × TimestampingStream σ :=
  let r := ops.make_writable s.inner
  (r.1, { s with inner := r.2 })

/-- The `Selectable::make_readable` impl for `TimestampingStream`
(source lines 238-240): `self.inner.make_readable()`. -/
def TimestampingStream.make_readable {σ : Type} (ops : InnerOps σ)
    (s : TimestampingStream σ) : Except Int Unit × TimestampingStream σ :=
  let r := ops.make_readable s.inner
  (r.1, { s with inner := r.2 })

/-- The pair a caller observes by querying `last_rx_timestamps` after a
read: whether timestamps are present, and the raw-hardware nanosecond
field (0 when absent). -/
def observeLast {σ : Type} (s : TimestampingStream σ) : Bool × Nat :=
  ((TimestampingStream.last_rx_timestamps s).isSome,
    ((TimestampingStream.last_rx_timestamps s).getD RxTimestamps.default).hw_raw_ns)

/-- Run a sequence of reads, recording the caller-observed
(present?, hw_raw_ns) pair after each; `none` if some read diverges. -/
def runReads {σ : Type} : TimestampingStream σ → List RecvOutcome → Option (List (Bool × Nat))
  | _, [] => some []
  | s, r :: rs =>
    match TimestampingStream.read s r with
    | none => none
    | some (_, s2) =>
      match runReads s2 rs with
      | none => none
      | some tl => some (observeLast s2 :: tl)

/-- A control region whose every offset holds a well-formed matching
timestamping entry with raw-hardware time `sec` seconds (software and
system-domain records zero): declared length 64 = aligned header (16)
plus three timespecs (48). -/
def ctrlHwRaw (sec : Int) : Ctrl :=
  fun _ => { cmsg_len := 64, cmsg_level := SOL_SOCKET, cmsg_type := SCM_TIMESTAMPING,
             scm := ⟨⟨0, 0⟩, ⟨0, 0⟩, ⟨sec, 0⟩⟩ }

/-- A control region with one non-matching 16-byte entry at offset 0
(socket level but not a timestamping message) and nothing after it. -/
def ctrlNoMatch : Ctrl :=
  fun _ => { cmsg_len := 16, cmsg_level := SOL_SOCKET, cmsg_type := 0,
             scm := ⟨⟨0, 0⟩, ⟨0, 0⟩, ⟨0, 0⟩⟩ }

/-- A control region holding a matching timestamping entry whose
declared length (32) is smaller than the aligned header plus the three
time records (64). -/
def ctrlShort : Ctrl :=
  fun _ => { cmsg_len := 32, cmsg_level := SOL_SOCKET, cmsg_type := SCM_TIMESTAMPING,
             scm := ⟨⟨5, 5⟩, ⟨5, 5⟩, ⟨5, 5⟩⟩ }

/-- A degenerate control region: every offset declares `cmsg_len = 0`
and a non-matching level/type. -/
def ctrlZeroLen : Ctrl :=
  fun _ => { cmsg_len := 0, cmsg_level := 0, cmsg_type := 0,
             scm := ⟨⟨0, 0⟩, ⟨0, 0⟩, ⟨0, 0⟩⟩ }

/-- Termination of the raw ancillary scan of a read: some fuel makes the
modelled loop finish. -/
def scanTerminates (ctrl : Ctrl) (cl : Nat) : Prop :=
  ∃ fuel, scanLoop ctrl cl fuel (cmsg_firsthdr cl) ≠ none

/-- The scan loop factored through the first-match search: the loop runs
out of fuel exactly when the search does, finds nothing exactly when the
search hits null, and otherwise stores the decoded entry at the first
matching offset when its declared length passes the validation. -/
theorem scanLoop_eq_findMatch (ctrl : Ctrl) (cl : Nat) :
    ∀ fuel c0, scanLoop ctrl cl fuel c0 =
      match findMatch ctrl cl fuel c0 with
      | none => none
      | some none => some none
      | some (some c) =>
        some (if cmsg_align size_of_cmsghdr + size_of_scm ≤ (ctrl c).cmsg_len then
          some (decodeEntry (ctrl c)) else none) := by
  intro fuel
  induction fuel with
  | zero => intro c0; cases c0 <;> simp [scanLoop, findMatch]
  | succ f ih =>
    intro c0
    cases c0 with
    | none => simp [scanLoop, findMatch]
    | some c =>
      by_cases hm : isMatch (ctrl c)
      · simp only [scanLoop, findMatch, hm, if_true]
        split <;> rfl
      · simp [scanLoop, findMatch, hm, ih]

/-- If no offset of the (fuel-truncated) chain matches, the first-match
search cannot return a found offset. -/
theorem findMatch_nomatch (ctrl : Ctrl) (cl : Nat) :
    ∀ fuel c0, (∀ o ∈ chainAll ctrl cl fuel c0, isMatch (ctrl o) = false) →
      ∀ c, findMatch ctrl cl fuel c0 ≠ some (some c) := by
  intro fuel
  induction fuel with
  | zero => intro c0 h c; cases c0 <;> simp [findMatch]
  | succ f ih =>
    intro c0 h c
    cases c0 with
    | none => simp [findMatch]
    | some c1 =>
      have h1 : isMatch (ctrl c1) = false := h c1 (by simp [chainAll])
      have h2 : ∀ o ∈ chainAll ctrl cl f (cmsg_nxthdr ctrl cl c1), isMatch (ctrl o) = false := by
        intro o ho
        exact h o (by simp [chainAll, ho])
      simp [findMatch, h1]
      exact ih (cmsg_nxthdr ctrl cl c1) h2 c

/-- Unpacking a successful `cmsg_nxthdr` step: the next offset is the
aligned advance, and both the next header and its declared length fit
inside the control region. -/
theorem cmsg_nxthdr_some (ctrl : Ctrl) (cl c next : Nat)
    (h : cmsg_nxthdr ctrl cl c = some next) :
    next = c + cmsg_align (ctrl c).cmsg_len ∧
    next + size_of_cmsghdr ≤ cl ∧ next + (ctrl next).cmsg_len ≤ cl := by
  simp only [cmsg_nxthdr] at h
  split_ifs at h with h1 h2
  cases h
  exact ⟨rfl, by omega, by omega⟩

/-- The step `cmsg_nxthdr` reads only the entry at the current offset and
the length of the next one: any region agreeing there steps
identically. -/
theorem cmsg_nxthdr_congr (ctrl ctrl2 : Ctrl) (cl c next : Nat)
    (h : cmsg_nxthdr ctrl cl c = some next)
    (e1 : ctrl2 c = ctrl c) (e2 : ctrl2 next = ctrl next) :
    cmsg_nxthdr ctrl2 cl c = some next := by
  obtain ⟨hn, h1, h2⟩ := cmsg_nxthdr_some ctrl cl c next h
  simp only [cmsg_nxthdr]
  rw [e1, ← hn, e2]
  rw [if_neg (by omega), if_neg (by omega)]

/-- The scan honours only the first matching entry: when the first-match
search stops at offset `c`, that entry matches, every offset the walk
visited before it does not, and the outcome of the whole scan loop is
unchanged under any control region agreeing with the original on those
visited offsets — in particular any later entries of the chain, matching
or not, are never examined. -/
theorem scan_first_match (ctrl : Ctrl) (cl : Nat) :
    ∀ fuel c0 c, findMatch ctrl cl fuel (some c0) = some (some c) →
      isMatch (ctrl c) = true ∧
      ∃ pre rest, chainAll ctrl cl fuel (some c0) = pre ++ c :: rest ∧
        (∀ o ∈ pre, isMatch (ctrl o) = false) ∧
        ∀ ctrl2 : Ctrl, (∀ o ∈ pre ++ [c], ctrl2 o = ctrl o) →
          scanLoop ctrl2 cl fuel (some c0) = scanLoop ctrl cl fuel (some c0) := by
  intro fuel
  induction fuel with
  | zero => intro c0 c h; simp [findMatch] at h
  | succ f ih =>
    intro c0 c h
    by_cases hm : isMatch (ctrl c0)
    · simp only [findMatch, hm, if_true, Option.some.injEq] at h
      subst h
      refine ⟨hm, [], chainAll ctrl cl f (cmsg_nxthdr ctrl cl c0), by simp [chainAll],
        by simp, ?_⟩
      intro ctrl2 hag
      have e0 : ctrl2 c0 = ctrl c0 := hag c0 (by simp)
      simp [scanLoop, e0, hm]
    · have hmf : isMatch (ctrl c0) = false := by simpa using hm
      simp only [findMatch, hmf, Bool.false_eq_true, if_false] at h
      cases hnx : cmsg_nxthdr ctrl cl c0 with
      | none => rw [hnx] at h; simp [findMatch] at h
      | some next =>
        rw [hnx] at h
        obtain ⟨hc, pre2, rest, hchain, hpre, hinv⟩ := ih next c h
        refine ⟨hc, c0 :: pre2, rest, ?_, ?_, ?_⟩
        · simp [chainAll, hnx, hchain]
        · intro o ho
          rcases List.mem_cons.mp ho with h1 | h2
          · exact h1 ▸ hmf
          · exact hpre o h2
        · intro ctrl2 hag
          have e0 : ctrl2 c0 = ctrl c0 := hag c0 (by simp)
          have hnextmem : next ∈ pre2 ++ [c] := by
            cases f with
            | zero => simp [chainAll] at hchain
            | succ f2 =>
              have hhd : next :: chainAll ctrl cl f2 (cmsg_nxthdr ctrl cl next) =
                  pre2 ++ c :: rest := by
                simpa [chainAll] using hchain
              cases pre2 with
              | nil =>
                simp only [List.nil_append, List.cons.injEq] at hhd
                simp [hhd.1]
              | cons a l =>
                simp only [List.cons_append, List.cons.injEq] at hhd
                simp [hhd.1]
          have enext : ctrl2 next = ctrl next :=
            hag next (by simpa using Or.inr (by simpa using hnextmem))
          have hnx2 : cmsg_nxthdr ctrl2 cl c0 = some next :=
            cmsg_nxthdr_congr ctrl ctrl2 cl c0 next hnx e0 enext
          have hag2 : ∀ o ∈ pre2 ++ [c], ctrl2 o = ctrl o := by
            intro o ho
            exact hag o (by simpa using Or.inr (by simpa using ho))
          have hrec := hinv ctrl2 hag2
          simp only [scanLoop, e0, hmf, Bool.false_eq_true, if_false]
          rw [hnx2, hnx]
          exact hrec

/-- Fuel accounting for the scan: when the declared lengths are nonzero
and small enough for the alignment computation not to wrap (here bounded
by a declared control length of at most the 512-byte scratch buffer),
every `cmsg_nxthdr` step advances by at least 8 bytes inside a region of
`cl` bytes, so fuel covering `cl` in steps of 8 cannot run out. -/
theorem scanLoop_fuel_enough (ctrl : Ctrl) (cl : Nat) (hcl : cl ≤ 512)
    (hlen : ∀ o, (ctrl o).cmsg_len ≠ 0 ∧ (ctrl o).cmsg_len ≤ cl) :
    ∀ fuel c, c + size_of_cmsghdr ≤ cl → cl ≤ c + 8 * fuel →
      scanLoop ctrl cl fuel (some c) ≠ none := by
  intro fuel
  induction fuel with
  | zero =>
    intro c h1 h2
    exfalso
    simp [size_of_cmsghdr] at h1
    omega
  | succ f ih =>
    intro c h1 h2
    by_cases hm : isMatch (ctrl c)
    · simp only [scanLoop, hm, if_true]
      split <;> simp
    · have hmf : isMatch (ctrl c) = false := by simpa using hm
      simp only [scanLoop, hmf, Bool.false_eq_true, if_false]
      cases hnx : cmsg_nxthdr ctrl cl c with
      | none => simp [scanLoop]
      | some next =>
        obtain ⟨hn, hb1, hb2⟩ := cmsg_nxthdr_some ctrl cl c next hnx
        have hstep : c + 8 ≤ next := by
          have hz : (ctrl c).cmsg_len ≠ 0 := (hlen c).1
          have hb : (ctrl c).cmsg_len ≤ cl := (hlen c).2
          have ha : 8 ≤ cmsg_align (ctrl c).cmsg_len := by
            unfold cmsg_align
            have hpow : (2 : Nat) ^ 64 = 18446744073709551616 := by norm_num
            have h64 : (ctrl c).cmsg_len + 8 - 1 < 2 ^ 64 := by omega
            rw [Nat.mod_eq_of_lt h64]
            omega
          omega
        exact ih next hb1 (by omega)

/-- On the degenerate region whose entries declare length 0, the walk
steps from offset 0 back to offset 0, so the scan consumes any amount of
fuel without finishing. -/
theorem scanLoop_ctrlZeroLen (fuel : Nat) : scanLoop ctrlZeroLen 16 fuel (some 0) = none := by
  induction fuel with
  | zero => rfl
  | succ f ih =>
    have hm : isMatch (ctrlZeroLen 0) = false := by decide
    have hnx : cmsg_nxthdr ctrlZeroLen 16 0 = some 0 := by decide
    simp only [scanLoop, hm, Bool.false_eq_true, if_false, hnx]
    exact ih

/-- Claim C1: for every read of a `TimestampingStream` that returns more
than 0 bytes, if no ancillary entry in the (terminating) control-message
chain matches level `SOL_SOCKET` and type `SCM_TIMESTAMPING`, then after
the read the cached last-captured slot is absent, regardless of what it
held before. -/
theorem C1_no_match_clears_last {σ : Type} (s : TimestampingStream σ) (n : Nat)
    (ctrl : Ctrl) (cl : Nat) (hn : n ≠ 0)
    (hnomatch : ∀ o ∈ chainAll ctrl cl (cl + 2) (cmsg_firsthdr cl), isMatch (ctrl o) = false)
    (hterm : scanLoop ctrl cl (cl + 2) (cmsg_firsthdr cl) ≠ none) :
    TimestampingStream.read s (.ok n ctrl cl) = some (.ok n, { s with last := none }) := by
  have heq := scanLoop_eq_findMatch ctrl cl (cl + 2) (cmsg_firsthdr cl)
  cases hF : findMatch ctrl cl (cl + 2) (cmsg_firsthdr cl) with
  | none =>
    rw [hF] at heq
    exact absurd heq hterm
  | some o =>
    cases o with
    | some c => exact absurd hF (findMatch_nomatch ctrl cl (cl + 2) (cmsg_firsthdr cl) hnomatch c)
    | none =>
      rw [hF] at heq
      simp [TimestampingStream.read, hn, heq]

/-- Witness for C1: a 1-byte read over a chain holding one non-matching
entry clears a previously cached value. -/
theorem C1_witness :
    ((1 : Nat) ≠ 0 ∧
      (∀ o ∈ chainAll ctrlNoMatch 16 (16 + 2) (cmsg_firsthdr 16), isMatch (ctrlNoMatch o) = false) ∧
      scanLoop ctrlNoMatch 16 (16 + 2) (cmsg_firsthdr 16) ≠ none) ∧
    TimestampingStream.read (⟨(), some ⟨7, 7, 7⟩⟩ : TimestampingStream Unit)
        (.ok 1 ctrlNoMatch 16) = some (.ok 1, ⟨(), none⟩) :=
  ⟨⟨by decide, by decide, by decide⟩,
    C1_no_match_clears_last ⟨(), some ⟨7, 7, 7⟩⟩ 1 ctrlNoMatch 16 (by decide) (by decide)
      (by decide)⟩

/-- Claim C2: a read in which `recvmsg` returns 0 bytes (EOF) clears the
cached slot to absent, returns `Ok(0)` and raises no error,
unconditionally, whatever the slot and control region held. -/
theorem C2_eof_clears_and_returns_zero {σ : Type} (s : TimestampingStream σ)
    (ctrl : Ctrl) (cl : Nat) :
    TimestampingStream.read s (.ok 0 ctrl cl) = some (.ok 0, { s with last := none }) := rfl

/-- Claim C3 code-bug evaluation: at the kernel timespec
`(18446744073 s, 999999999 ns)` the seconds product still fits a `u64`,
so the saturating multiplication does not saturate, and the following
unchecked addition wraps modulo `2 ^ 64` to `290448383` — which is
neither the exact value `seconds * 1e9 + nanoseconds` the claim
requires, nor the saturated maximum it requires near the top of the
range. -/
theorem C3_add_overflow_wraps_not_saturates :
    ns_from_timespec ⟨18446744073, 999999999⟩ = 290448383 ∧
    (18446744073 : Nat) * 1000000000 + 999999999 = 18446744073999999999 ∧
    (290448383 : Nat) ≠ 18446744073999999999 ∧
    (290448383 : Nat) ≠ u64Max := by decide

/-- Claim C4: a non-EOF read whose first matching entry passes the
length validation and carries three all-zero timespecs caches the
present value `{sw_ns := 0, hw_sys_ns := 0, hw_raw_ns := 0}` — a state
distinct from the absent state a matchless read produces. -/
theorem C4_all_zero_entry_present {σ : Type} (s : TimestampingStream σ) (n : Nat)
    (ctrl : Ctrl) (cl c : Nat) (hn : n ≠ 0)
    (hfind : findMatch ctrl cl (cl + 2) (cmsg_firsthdr cl) = some (some c))
    (hlen : cmsg_align size_of_cmsghdr + size_of_scm ≤ (ctrl c).cmsg_len)
    (hzero : (ctrl c).scm = ⟨⟨0, 0⟩, ⟨0, 0⟩, ⟨0, 0⟩⟩) :
    TimestampingStream.read s (.ok n ctrl cl) =
      some (.ok n, { s with last := some ⟨0, 0, 0⟩ }) ∧
    some (⟨0, 0, 0⟩ : RxTimestamps) ≠ (none : Option RxTimestamps) := by
  have heq := scanLoop_eq_findMatch ctrl cl (cl + 2) (cmsg_firsthdr cl)
  rw [hfind] at heq
  dsimp only [] at heq
  rw [if_pos hlen] at heq
  have hdec : decodeEntry (ctrl c) = ⟨0, 0, 0⟩ := by
    simp [decodeEntry, hzero, ns_from_timespec]
  rw [hdec] at heq
  refine ⟨?_, by simp⟩
  simp [TimestampingStream.read, hn, heq]

/-- Witness for C4: a valid matching entry with three all-zero timespecs
yields a present all-zero cache. -/
theorem C4_witness :
    ((1 : Nat) ≠ 0 ∧
      findMatch (ctrlHwRaw 0) 64 (64 + 2) (cmsg_firsthdr 64) = some (some 0) ∧
      cmsg_align size_of_cmsghdr + size_of_scm ≤ (ctrlHwRaw 0 0).cmsg_len ∧
      (ctrlHwRaw 0 0).scm = ⟨⟨0, 0⟩, ⟨0, 0⟩, ⟨0, 0⟩⟩) ∧
    (TimestampingStream.read (⟨(), none⟩ : TimestampingStream Unit) (.ok 1 (ctrlHwRaw 0) 64) =
        some (.ok 1, ⟨(), some ⟨0, 0, 0⟩⟩) ∧
      some (⟨0, 0, 0⟩ : RxTimestamps) ≠ (none : Option RxTimestamps)) :=
  ⟨⟨by decide, by decide, by decide, by decide⟩,
    C4_all_zero_entry_present ⟨(), none⟩ 1 (ctrlHwRaw 0) 64 0 (by decide) (by decide)
      (by decide) (by decide)⟩

/-- Claim C5: when the first matching entry declares a `cmsg_len`
smaller than the aligned header size plus the three fixed-size time
records, its payload is not interpreted and no timestamps are stored
from it: the read completes with the cached slot absent. -/
theorem C5_short_entry_ignored {σ : Type} (s : TimestampingStream σ) (n : Nat)
    (ctrl : Ctrl) (cl c : Nat) (hn : n ≠ 0)
    (hfind : findMatch ctrl cl (cl + 2) (cmsg_firsthdr cl) = some (some c))
    (hshort : (ctrl c).cmsg_len < cmsg_align size_of_cmsghdr + size_of_scm) :
    TimestampingStream.read s (.ok n ctrl cl) = some (.ok n, { s with last := none }) := by
  have heq := scanLoop_eq_findMatch ctrl cl (cl + 2) (cmsg_firsthdr cl)
  rw [hfind] at heq
  dsimp only [] at heq
  rw [if_neg (by omega)] at heq
  simp [TimestampingStream.read, hn, heq]

/-- Witness for C5: a matching entry declaring only 32 bytes stores
nothing. -/
theorem C5_witness :
    ((1 : Nat) ≠ 0 ∧
      findMatch ctrlShort 64 (64 + 2) (cmsg_firsthdr 64) = some (some 0) ∧
      (ctrlShort 0).cmsg_len < cmsg_align size_of_cmsghdr + size_of_scm) ∧
    TimestampingStream.read (⟨(), some ⟨7, 7, 7⟩⟩ : TimestampingStream Unit)
        (.ok 1 ctrlShort 64) = some (.ok 1, ⟨(), none⟩) :=
  ⟨⟨by decide, by decide, by decide⟩,
    C5_short_entry_ignored ⟨(), some ⟨7, 7, 7⟩⟩ 1 ctrlShort 64 0 (by decide) (by decide)
      (by decide)⟩

/-- Claim C6: three successive non-EOF reads whose ancillary data decode
to raw-hardware values 1e9 ns, absent, and 2e9 ns produce the observed
sequence [(true, 1e9), (false, 0), (true, 2e9)]. -/
theorem C6_three_read_sequence :
    runReads (TimestampingStream.new ())
      [.ok 1 (ctrlHwRaw 1) 64, .ok 1 ctrlNoMatch 16, .ok 1 (ctrlHwRaw 2) 64] =
      some [(true, 1000000000), (false, 0), (true, 2000000000)] := by decide

/-- Claim C7: per read at most one control-message entry contributes
timestamps — the scan stops at the first entry matching `SOL_SOCKET` /
`SCM_TIMESTAMPING`, every entry visited before it is non-matching, and
the result of the read is unchanged under any control region agreeing
with the original on the visited offsets, so later entries (matching or
not) are never examined or decoded. -/
theorem C7_first_match_only {σ : Type} (s : TimestampingStream σ) (n : Nat)
    (ctrl : Ctrl) (cl c : Nat) (hn : n ≠ 0)
    (hfind : findMatch ctrl cl (cl + 2) (cmsg_firsthdr cl) = some (some c)) :
    isMatch (ctrl c) = true ∧
    ∃ pre rest, chainAll ctrl cl (cl + 2) (cmsg_firsthdr cl) = pre ++ c :: rest ∧
      (∀ o ∈ pre, isMatch (ctrl o) = false) ∧
      ∀ ctrl2 : Ctrl, (∀ o ∈ pre ++ [c], ctrl2 o = ctrl o) →
        TimestampingStream.read s (.ok n ctrl2 cl) = TimestampingStream.read s (.ok n ctrl cl) := by
  cases hf0 : cmsg_firsthdr cl with
  | none => rw [hf0] at hfind; simp [findMatch] at hfind
  | some c0 =>
    rw [hf0] at hfind
    obtain ⟨hc, pre, rest, hchain, hpre, hinv⟩ := scan_first_match ctrl cl (cl + 2) c0 c hfind
    refine ⟨hc, pre, rest, hchain, hpre, ?_⟩
    intro ctrl2 hag
    have hscan : scanLoop ctrl2 cl (cl + 2) (some c0) = scanLoop ctrl cl (cl + 2) (some c0) :=
      hinv ctrl2 hag
    simp only [TimestampingStream.read, if_neg hn, hf0, hscan]

/-- Witness for C7: a chain whose first entry matches at offset 0. -/
theorem C7_witness :
    ((1 : Nat) ≠ 0 ∧ findMatch (ctrlHwRaw 1) 64 (64 + 2) (cmsg_firsthdr 64) = some (some 0)) ∧
    (isMatch (ctrlHwRaw 1 0) = true ∧
      ∃ pre rest, chainAll (ctrlHwRaw 1) 64 (64 + 2) (cmsg_firsthdr 64) = pre ++ 0 :: rest ∧
        (∀ o ∈ pre, isMatch (ctrlHwRaw 1 o) = false) ∧
        ∀ ctrl2 : Ctrl, (∀ o ∈ pre ++ [0], ctrl2 o = ctrlHwRaw 1 o) →
          TimestampingStream.read (TimestampingStream.new ()) (.ok 1 ctrl2 64) =
            TimestampingStream.read (TimestampingStream.new ()) (.ok 1 (ctrlHwRaw 1) 64)) :=
  ⟨⟨by decide, by decide⟩,
    C7_first_match_only (TimestampingStream.new ()) 1 (ctrlHwRaw 1) 64 0 (by decide) (by decide)⟩

/-- Claim C8: `write`, `flush`, `connection_info`, `as_raw_fd`,
`connected`, `make_writable` and `make_readable` on the wrapper each
return exactly what the same operation on the inner stream returns, with
identical arguments forwarded, and the wrapping layer introduces no
observable change (the cached timestamp slot is untouched). -/
theorem C8_pure_forwarding {σ : Type} (ops : InnerOps σ) (s : TimestampingStream σ)
    (buf : List Nat) :
    (TimestampingStream.write ops s buf).1 = (ops.write s.inner buf).1 ∧
    (TimestampingStream.write ops s buf).2.inner = (ops.write s.inner buf).2 ∧
    (TimestampingStream.write ops s buf).2.last = s.last ∧
    (TimestampingStream.flush ops s).1 = (ops.flush s.inner).1 ∧
    (TimestampingStream.flush ops s).2.inner = (ops.flush s.inner).2 ∧
    (TimestampingStream.flush ops s).2.last = s.last ∧
    TimestampingStream.connection_info ops s = ops.connection_info s.inner ∧
    TimestampingStream.as_raw_fd ops s = ops.as_raw_fd s.inner ∧
    (TimestampingStream.connected ops s).1 = (ops.connected s.inner).1 ∧
    (TimestampingStream.connected ops s).2.inner = (ops.connected s.inner).2 ∧
    (TimestampingStream.connected ops s).2.last = s.last ∧
    (TimestampingStream.make_writable ops s).1 = (ops.make_writable s.inner).1 ∧
    (TimestampingStream.make_writable ops s).2.inner = (ops.make_writable s.inner).2 ∧
    (TimestampingStream.make_writable ops s).2.last = s.last ∧
    (TimestampingStream.make_readable ops s).1 = (ops.make_readable s.inner).1 ∧
    (TimestampingStream.make_readable ops s).2.inner = (ops.make_readable s.inner).2 ∧
    (TimestampingStream.make_readable ops s).2.last = s.last :=
  ⟨rfl, rfl, rfl, rfl, rfl, rfl, rfl, rfl, rfl, rfl, rfl, rfl, rfl, rfl, rfl, rfl, rfl⟩

/-- Claim C9: a read in which `recvmsg` returns a negative value
propagates the corresponding OS error code to the caller, and the cached
last-captured slot (indeed the whole wrapper state) is left exactly as
it was before the failed read. -/
theorem C9_error_preserves_last {σ : Type} (s : TimestampingStream σ) (e : Int) :
    TimestampingStream.read s (.err e) = some (.error e, s) := rfl

/-- Counterexample to C10 as stated: on a control region whose entry at
offset 0 declares `cmsg_len = 0` (level/type non-matching) with a
declared control length of 16, `cmsg_nxthdr` returns offset 0 again, so
the per-read scan loop revisits offset 0 forever and does not visit only
finitely many entries: no amount of fuel finishes the modelled loop. -/
theorem C10_zero_len_entry_diverges : ¬ scanTerminates ctrlZeroLen 16 := by
  rintro ⟨fuel, hf⟩
  apply hf
  have h0 : cmsg_firsthdr 16 = some 0 := by decide
  rw [h0]
  exact scanLoop_ctrlZeroLen fuel

/-- Claim C10, amended: `cmsg_firsthdr` returns null when the declared
control length is smaller than one header; `cmsg_nxthdr` returns null
whenever the next header or its own declared length would extend past
the end of the control region, so every stepped-to entry lies wholly
inside the declared region (hence inside the 512-byte scratch buffer);
and provided the declared control length is at most the 512-byte
scratch buffer (as the kernel guarantees) and every entry declares a
nonzero `cmsg_len` no larger than the declared control length, the scan
loop terminates (the walk visits finitely many entries).  Excluding
zero alone would not be enough: a huge declared length such as
`u64::MAX` wraps the alignment computation to a zero step exactly as a
zero length does (and in a release build the subsequent bounds checks
go through wrapped pointer additions, outside any faithful region of
the model), so the amended hypothesis bounds the declared lengths,
keeping every addition the walk performs in range. -/
theorem C10_walk_bounded_and_terminates (ctrl : Ctrl) (cl : Nat) (hcl : cl ≤ 512)
    (hlen : ∀ o, (ctrl o).cmsg_len ≠ 0 ∧ (ctrl o).cmsg_len ≤ cl) :
    (cl < size_of_cmsghdr → cmsg_firsthdr cl = none) ∧
    (∀ c next, cmsg_nxthdr ctrl cl c = some next →
      next + size_of_cmsghdr ≤ cl ∧ next + (ctrl next).cmsg_len ≤ cl) ∧
    (∀ c next, cmsg_nxthdr ctrl cl c = some next →
      next + (ctrl next).cmsg_len ≤ 512) ∧
    scanLoop ctrl cl (cl + 2) (cmsg_firsthdr cl) ≠ none := by
  refine ⟨?_, ?_, ?_, ?_⟩
  · intro h
    simp only [cmsg_firsthdr]
    rw [if_neg (by omega)]
  · intro c next h
    exact (cmsg_nxthdr_some ctrl cl c next h).2
  · intro c next h
    have := (cmsg_nxthdr_some ctrl cl c next h).2.2
    omega
  · by_cases hfit : size_of_cmsghdr ≤ cl
    · have h0 : cmsg_firsthdr cl = some 0 := by
        simp only [cmsg_firsthdr]
        rw [if_pos hfit]
      rw [h0]
      exact scanLoop_fuel_enough ctrl cl hcl hlen (cl + 2) 0 (by omega) (by omega)
    · have h0 : cmsg_firsthdr cl = none := by
        simp only [cmsg_firsthdr]
        rw [if_neg hfit]
      rw [h0]
      simp [scanLoop]

/-- Witness for the amended C10: a 16-byte control region holding one
16-byte entry satisfies the length bounds and its scan terminates. -/
theorem C10_witness :
    ((16 : Nat) ≤ 512 ∧
      (∀ o, (ctrlNoMatch o).cmsg_len ≠ 0 ∧ (ctrlNoMatch o).cmsg_len ≤ 16)) ∧
    ((16 < size_of_cmsghdr → cmsg_firsthdr 16 = none) ∧
      (∀ c next, cmsg_nxthdr ctrlNoMatch 16 c = some next →
        next + size_of_cmsghdr ≤ 16 ∧ next + (ctrlNoMatch next).cmsg_len ≤ 16) ∧
      (∀ c next, cmsg_nxthdr ctrlNoMatch 16 c = some next →
        next + (ctrlNoMatch next).cmsg_len ≤ 512) ∧
      scanLoop ctrlNoMatch 16 (16 + 2) (cmsg_firsthdr 16) ≠ none) :=
  ⟨⟨by decide, fun o => ⟨by show (16 : Nat) ≠ 0; decide, by show (16 : Nat) ≤ 16; decide⟩⟩,
    C10_walk_bounded_and_terminates ctrlNoMatch 16 (by decide)
      (fun o => ⟨by show (16 : Nat) ≠ 0; decide, by show (16 : Nat) ≤ 16; decide⟩)⟩

end Boomnet
